import Mathlib

/-!
Verification development for the LAVA scheduler daemon's database job source
(`lava_scheduler_daemon/dbjobsource.py`).

The Python module mediates between polling board agents and a shared
relational store holding two tables, `Device` and `TestJob`.  We embed the
store as explicit Lean data (lists of records), the per-call transactional
scope as a pair (committed state, pending state), and the claim loop of
`getJobForBoard_impl` as a recursion driven by the sequence of committed
states it observes (one read state and one constraint-check state per
iteration, so that interference from concurrent transactions is expressible).
-/

namespace DbJobSource

/-- Device.status values used by the module (`Device.IDLE` etc.). -/
inductive DeviceStatus
  | IDLE
  | RUNNING
  | OFFLINE
  | OFFLINING
deriving DecidableEq

/-- TestJob.status values used by the module (`TestJob.SUBMITTED` etc.). -/
inductive JobStatus
  | SUBMITTED
  | RUNNING
  | CANCELING
  | CANCELED
  | COMPLETE
  | INCOMPLETE
deriving DecidableEq

/-- A row of the TestJob table, with the fields `dbjobsource.py` touches.
`definition` is the JSON payload, embedded as an association list since the
module only parses it to inject one key. -/
structure Job where
  id : Nat
  definition : List (String × String)
  status : JobStatus
  requested_device : Option String
  requested_device_type : Option String
  submit_time : Nat
  start_time : Option Nat
  end_time : Option Nat
  actual_device : Option String
  log_file : Option String
  results_link : Option String
deriving DecidableEq

/-- A row of the Device table, with the fields `dbjobsource.py` touches.
`current_job` holds the id of the attached job; the table carries a
uniqueness constraint on this column. -/
structure Device where
  hostname : String
  device_type : String
  status : DeviceStatus
  current_job : Option Nat
deriving DecidableEq

/-- A committed database state: the two tables. -/
structure St where
  devices : List Device
  jobs : List Job
deriving DecidableEq

/-- Python-level exceptions the module's operations can raise. -/
inductive PyError
  | storeError (message : String)
  | doesNotExist
  | attributeError
  | valueError
deriving DecidableEq

/-- `Device.objects.get(hostname=...)` over a device list. -/
def findDeviceL (l : List Device) (board : String) : Option Device :=
  l.find? (fun d => decide (d.hostname = board))

/-- `Device.objects.get(hostname=...)` over a state. -/
def findDevice (st : St) (board : String) : Option Device :=
  findDeviceL st.devices board

/-- Fetch a TestJob row by id (a foreign-key dereference). -/
def findJob (st : St) (jid : Nat) : Option Job :=
  st.jobs.find? (fun j => decide (j.id = jid))

/-- `device.save()`: write back the row with this device's hostname. -/
def updateDevice (st : St) (d : Device) : St :=
  { st with devices := st.devices.map (fun x => if x.hostname = d.hostname then d else x) }

/-- `job.save()`: write back the row with this job's id. -/
def updateJob (st : St) (j : Job) : St :=
  { st with jobs := st.jobs.map (fun x => if x.id = j.id then j else x) }

/-- Assignment `json_data[k] = v` on a JSON object. -/
def setKV (obj : List (String × String)) (k v : String) : List (String × String) :=
  if obj.any (fun p => decide (p.1 = k)) then
    obj.map (fun p => if p.1 = k then (k, v) else p)
  else
    obj ++ [(k, v)]

/-- The log file name allocated on a successful claim: `'job-%s.log' % job.id`. -/
def logName (jid : Nat) : String :=
  "job-" ++ toString jid ++ ".log"

/-- The candidate filter of `getJobForBoard_impl`:
`filter(Q(requested_device=device) | Q(requested_device_type=device.device_type), status=TestJob.SUBMITTED)`.
Note the type clause has no null test on `requested_device`. -/
def isCandidate (device : Device) (j : Job) : Bool :=
  decide (j.status = JobStatus.SUBMITTED) &&
    (decide (j.requested_device = some device.hostname) ||
      decide (j.requested_device_type = some device.device_type))

/-- The extra select column `is_targeted: 'requested_device_id is not NULL'`. -/
def is_targeted (j : Job) : Bool :=
  j.requested_device.isSome

/-- Sort key realising `order_by=['-is_targeted', 'submit_time']`: targeted
rows first, then ascending submit time. -/
def jobKey (j : Job) : Nat × Nat :=
  ((if is_targeted j then 0 else 1), j.submit_time)

/-- Strict lexicographic comparison on sort keys. -/
def keyLt (p q : Nat × Nat) : Bool :=
  decide (p.1 < q.1 ∨ (p.1 = q.1 ∧ p.2 < q.2))

/-- First minimal element of a job list under `jobKey` (the row `LIMIT 1`
returns; ties between equal keys resolve to the earlier row). -/
def pickMin : List Job → Option Job
  | [] => none
  | j :: rest =>
    match pickMin rest with
    | none => some j
    | some b => if keyLt (jobKey b) (jobKey j) then some b else some j

/-- `jobs_for_device[:1]` after filtering and ordering: the selected
candidate for an idle device, if any. -/
def selectJob (st : St) (device : Device) : Option Job :=
  pickMin (st.jobs.filter (isCandidate device))

/-- The pending writes of one claim attempt: the updated device row, the
updated job row, and the JSON value to return. -/
structure Pend where
  device : Device
  job : Job
  result : List (String × String)
deriving DecidableEq

/-- Outcome of the read half of one loop iteration of `getJobForBoard_impl`
(steps 1-5 of the spec: re-read device, filter, order, build the updates). -/
inductive ReadStep
  | err (e : PyError)
  | noJob
  | claim (p : Pend)
deriving DecidableEq

/-- The read half of one iteration of `getJobForBoard_impl`: fetch the
device, return none unless IDLE, select the candidate, and stage the claim
updates (job → RUNNING with start time / actual device / log file, device →
RUNNING holding the job, result JSON with `target` injected). -/
def agentRead (now : Nat) (db : St) (board : String) : ReadStep :=
  match findDevice db board with
  | none => .err .doesNotExist
  | some device =>
    if device.status = DeviceStatus.IDLE then
      match selectJob db device with
      | none => .noJob
      | some job =>
        let job1 : Job :=
          { job with
              status := JobStatus.RUNNING
              start_time := some now
              actual_device := some device.hostname
              log_file := some (logName job.id) }
        let device1 : Device :=
          { device with
              status := DeviceStatus.RUNNING
              current_job := some job.id }
        .claim ⟨device1, job1, setKV job.definition "target" device.hostname⟩
    else .noJob

/-- The write half of one iteration: `device.save()` checked against the
uniqueness constraint on `current_job` over the committed state `db`, then
`job.log_file.save`, `job.save()`, `transaction.commit()`.  Returns `none`
on `IntegrityError` (some other device row already holds this job), else the
new committed state. -/
def agentCommit (db : St) (p : Pend) : Option St :=
  if db.devices.any (fun d =>
      !(decide (d.hostname = p.device.hostname)) && decide (d.current_job = some p.job.id)) then
    none
  else
    some (updateJob (updateDevice db p.device) p.job)

/-- Result of running the `getJobForBoard_impl` loop. -/
inductive RunResult
  | looping
  | errored (e : PyError)
  | returnedNone
  | returnedJob (result : List (String × String)) (final : St)
deriving DecidableEq

/-- The `while True` loop of `getJobForBoard_impl`.  Each iteration consumes
a pair `(rd, ck)`: `rd` is the committed state the iteration reads, `ck` the
committed state the uniqueness constraint is checked against when
`device.save()` runs (they differ exactly when a concurrent transaction
commits in between).  On `IntegrityError` the code rolls the attempt back
and continues; the model accordingly discards the staged writes and
recurses on the remaining states. -/
def getJobForBoard_run (board : String) (now : Nat) : List (St × St) → RunResult
  | [] => .looping
  | (rd, ck) :: rest =>
    match agentRead now rd board with
    | .err e => .errored e
    | .noJob => .returnedNone
    | .claim p =>
      match agentCommit ck p with
      | none => getJobForBoard_run board now rest
      | some db2 => .returnedJob p.result db2

/-- `getJobForBoard_impl` in the absence of concurrent interference: every
iteration reads and checks the same committed state `st`. -/
def getJobForBoard_seq (board : String) (now : Nat) (st : St) (fuel : Nat) : RunResult :=
  getJobForBoard_run board now (List.replicate fuel (st, st))

/-- A committed state is consistent when no device row holds a job that is
still SUBMITTED (every committed claim set the job RUNNING in the same
transaction). -/
def Consistent (st : St) : Prop :=
  ∀ d ∈ st.devices, ∀ j ∈ st.jobs, d.current_job = some j.id → ¬ j.status = JobStatus.SUBMITTED

/-- The spec's targeting clause, as worded in the spec (for comparison with
the source's `isCandidate`): `requested_device == device` OR
(`requested_device is null` AND `requested_device_type == device.device_type`). -/
def specTargetingClause (device : Device) (j : Job) : Bool :=
  decide (j.status = JobStatus.SUBMITTED) &&
    (decide (j.requested_device = some device.hostname) ||
      (j.requested_device.isNone && decide (j.requested_device_type = some device.device_type)))

/-- `jobCompleted_impl(board_name, exit_code)`: fetch the device, map its
status (RUNNING→IDLE, OFFLINING→OFFLINE, anything else logged and forced to
IDLE), dereference `device.current_job` (an `AttributeError` if it is null),
detach it, map the job status (RUNNING→COMPLETE/INCOMPLETE by exit code,
CANCELING→CANCELED, anything else logged and forced to COMPLETE), stamp
`end_time`, then `device.save()` and `job.save()`.  The returned state is
the transaction's pending state; the function issues no commit. -/
def jobCompleted_impl (board : String) (now : Nat) (exit_code : Int) (st : St) :
    Except PyError St :=
  match findDevice st board with
  | none => .error .doesNotExist
  | some device =>
    let dstatus :=
      if device.status = DeviceStatus.RUNNING then DeviceStatus.IDLE
      else if device.status = DeviceStatus.OFFLINING then DeviceStatus.OFFLINE
      else DeviceStatus.IDLE
    match device.current_job with
    | none => .error .attributeError
    | some jid =>
      match findJob st jid with
      | none => .error .doesNotExist
      | some job =>
        let jstatus :=
          if job.status = JobStatus.RUNNING then
            (if exit_code = 0 then JobStatus.COMPLETE else JobStatus.INCOMPLETE)
          else if job.status = JobStatus.CANCELING then JobStatus.CANCELED
          else JobStatus.COMPLETE
        let device1 : Device := { device with status := dstatus, current_job := none }
        let job1 : Job := { job with status := jstatus, end_time := some now }
        .ok (updateJob (updateDevice st device1) job1)

/-- `getLogFileForJobOnBoard_impl`: fetch the device, dereference
`device.current_job` (an `AttributeError` if null), then close and reopen its
log file for writing (a `ValueError` if the job has no file). -/
def getLogFileForJobOnBoard_impl (board : String) (st : St) : Except PyError String :=
  match findDevice st board with
  | none => .error .doesNotExist
  | some device =>
    match device.current_job with
    | none => .error .attributeError
    | some jid =>
      match findJob st jid with
      | none => .error .doesNotExist
      | some job =>
        match job.log_file with
        | none => .error .valueError
        | some name => .ok name

/-- `jobCheckForCancellation_impl`: fetch the device, dereference
`device.current_job` (an `AttributeError` if null), and report whether
`job.status != TestJob.RUNNING`. -/
def jobCheckForCancellation_impl (board : String) (st : St) : Except PyError Bool :=
  match findDevice st board with
  | none => .error .doesNotExist
  | some device =>
    match device.current_job with
    | none => .error .attributeError
    | some jid =>
      match findJob st jid with
      | none => .error .doesNotExist
      | some job => .ok (decide (¬ job.status = JobStatus.RUNNING))

/-- One transactional scope: the committed database state and the pending
state as seen inside the open transaction. -/
structure TxState where
  committed : St
  pending : St
deriving DecidableEq

/-- `jobCompleted_impl` acting on a transactional scope: its writes stay
pending (the function never calls `transaction.commit()`). -/
def jobCompleted_tx (board : String) (now : Nat) (exit_code : Int) (ts : TxState) :
    TxState × Except PyError Unit :=
  match jobCompleted_impl board now exit_code ts.pending with
  | .ok st1 => ({ ts with pending := st1 }, .ok ())
  | .error e => (ts, .error e)

/-- `jobOobData_impl(board_name, key, value)`: only the key
`'dashboard-put-result'` is recognized; it sets `results_link` on the
device's current job, saves it and commits at once.  Every other key is
logged and ignored. -/
def jobOobData_impl (board key value : String) (ts : TxState) :
    TxState × Except PyError Unit :=
  if key = "dashboard-put-result" then
    match findDevice ts.pending board with
    | none => (ts, .error .doesNotExist)
    | some device =>
      match device.current_job with
      | none => (ts, .error .attributeError)
      | some jid =>
        match findJob ts.pending jid with
        | none => (ts, .error .doesNotExist)
        | some job =>
          let st1 := updateJob ts.pending { job with results_link := some value }
          (⟨st1, st1⟩, .ok ())
  else (ts, .ok ())

/-- The connection cache plus the transactional scope of one worker thread:
`conn = none` models `connection.connection is None`. -/
structure DbEnv where
  conn : Option Bool
  tx : TxState
deriving DecidableEq

/-- The dead-connection classification in `deferForDB`: the message equals
`'connection already closed'`, or starts with
`'terminating connection due to administrator command'`, or starts with
`'could not connect to server: Connection refused'`. -/
def isDeadConnectionMessage (m : String) : Bool :=
  decide (m = "connection already closed") ||
    m.startsWith "terminating connection due to administrator command" ||
    m.startsWith "could not connect to server: Connection refused"

/-- Whether an exception triggers the classification: only the store error
classes (`DatabaseError`, `OperationalError`, `InterfaceError`) are caught
and inspected. -/
def isDeadError (e : PyError) : Bool :=
  match e with
  | .storeError m => isDeadConnectionMessage m
  | _ => false

/-- The connection-establishing preamble of the wrapper: if
`connection.connection is None`, open a cursor (which connects) and commit
at once; otherwise keep the cached connection. -/
def ensureConn (c : Option Bool) : Option Bool :=
  match c with
  | none => some false
  | some b => some b

/-- The wrapper body of `deferForDB`: ensure a connection exists (creating
and committing a fresh one if the cache is empty), run the unit of work, on
a store error whose message marks a dead connection drop the cached
connection, re-raise every error, and in all cases roll the transactional
scope back unconditionally before leaving. -/
def deferForDB {α : Type} (impl : TxState → TxState × Except PyError α) (env : DbEnv) :
    DbEnv × Except PyError α :=
  let conn0 : Option Bool := ensureConn env.conn
  let r := impl env.tx
  let conn1 : Option Bool :=
    match r.2 with
    | .error (.storeError m) => if isDeadConnectionMessage m then none else conn0
    | _ => conn0
  (⟨conn1, ⟨r.1.committed, r.1.committed⟩⟩, r.2)

/-- `jobCompleted` as exposed to agents: the impl run through `deferForDB`. -/
def jobCompleted (board : String) (now : Nat) (exit_code : Int) (env : DbEnv) :
    DbEnv × Except PyError Unit :=
  deferForDB (jobCompleted_tx board now exit_code) env

/-- `jobOobData` as exposed to agents: the impl run through `deferForDB`. -/
def jobOobData (board key value : String) (env : DbEnv) : DbEnv × Except PyError Unit :=
  deferForDB (jobOobData_impl board key value) env

/-- Local state of one polling agent running `getJobForBoard_impl` in the
interleaved model: about to (re-)read, holding staged writes about to be
saved, finished with a result, or failed with an exception. -/
inductive APhase
  | toRead
  | toCommit (p : Pend)
  | done (res : Option (List (String × String)))
  | failed (e : PyError)
deriving DecidableEq

/-- One polling agent: the board it polls for and its execution phase. -/
structure Agent where
  board : String
  phase : APhase
deriving DecidableEq

/-- The interleaved system: the shared committed database and the agents. -/
structure Sys where
  db : St
  agents : List Agent
deriving DecidableEq

/-- One atomic step of agent `i`: a reading agent performs the read half of
an iteration against the committed state; an agent holding staged writes
performs `device.save()`'s constraint check and, on success, commits its
writes (on `IntegrityError` it rolls back and returns to the read phase).
Finished or failed agents do nothing. -/
def stepSys (now : Nat) (sys : Sys) (i : Nat) : Sys :=
  match (sys.agents[i]? : Option Agent) with
  | none => sys
  | some a =>
    match a.phase with
    | .toRead =>
      let ph :=
        match agentRead now sys.db a.board with
        | .err e => APhase.failed e
        | .noJob => APhase.done none
        | .claim p => APhase.toCommit p
      { sys with agents := sys.agents.set i { a with phase := ph } }
    | .toCommit p =>
      match agentCommit sys.db p with
      | none => { sys with agents := sys.agents.set i { a with phase := .toRead } }
      | some db2 => { db := db2, agents := sys.agents.set i { a with phase := .done (some p.result) } }
    | .done _ => sys
    | .failed _ => sys

/-- Run a schedule: a list of agent indices, stepped left to right. -/
def runSys (now : Nat) (sys : Sys) (sched : List Nat) : Sys :=
  sched.foldl (stepSys now) sys

/-- All agents have finished. -/
def Complete (sys : Sys) : Prop :=
  ∀ (i : Nat) (a : Agent), sys.agents[i]? = some a → ∃ r, a.phase = APhase.done r

/-- The device row a successful claim writes: status RUNNING, holding `jid`. -/
def devClaim (d : Device) (jid : Nat) : Device :=
  { d with status := DeviceStatus.RUNNING, current_job := some jid }

/-- The job row a successful claim writes: RUNNING, with start time, actual
device and the allocated log file. -/
def jobClaim (j : Job) (h : String) (now : Nat) : Job :=
  { j with
      status := JobStatus.RUNNING
      start_time := some now
      actual_device := some h
      log_file := some (logName j.id) }

/-- The staged writes of a claim of job `j` by device `d`. -/
def pendFor (d : Device) (j : Job) (now : Nat) : Pend :=
  ⟨devClaim d j.id, jobClaim j d.hostname now, setKV j.definition "target" d.hostname⟩

/-- Discriminator: did the run return a job? -/
def isJobResult : RunResult → Bool
  | .returnedJob _ _ => true
  | _ => false

/-- The device table after hostname `h` committed a claim of job `jid`. -/
def claimedDevs (D : List Device) (h : String) (jid : Nat) : List Device :=
  D.map (fun d => if d.hostname = h then devClaim d jid else d)

/-- An agent that has not yet finished in the single-job race: it is either
about to read, or holds the staged claim of the one job for its own device. -/
def AgentOK0 (now : Nat) (D : List Device) (J : Job) (a : Agent) : Prop :=
  a.phase = APhase.toRead ∨
    ∃ d, findDeviceL D a.board = some d ∧ a.phase = APhase.toCommit (pendFor d J now)

/-- Initial store for the single-job race: distinct hostnames, no device
holds a job, the one job is SUBMITTED. -/
def GoodInit (D : List Device) (J : Job) : Prop :=
  (D.map (fun d => d.hostname)).Nodup ∧ (∀ d ∈ D, d.current_job = none) ∧
    J.status = JobStatus.SUBMITTED

/-- The competing boards: pairwise distinct, each present, idle, and a
match for the one job. -/
def GoodBoards (D : List Device) (J : Job) (B : List String) : Prop :=
  B.Nodup ∧
    ∀ b ∈ B, ∃ d, findDeviceL D b = some d ∧ d.status = DeviceStatus.IDLE ∧
      isCandidate d J = true

/-- Inductive invariant of the single-job race: either nobody has committed
a claim yet (store untouched, every agent reading or holding the staged
claim), or exactly one board `h` has committed (store holds the claimed
rows, the agent for `h` is finished with the job, everyone else is reading,
holding a doomed staged claim, or finished empty-handed). -/
def Inv (now : Nat) (D : List Device) (J : Job) (B : List String) (sys : Sys) : Prop :=
  sys.agents.map (fun a => a.board) = B ∧
  ((sys.db = ⟨D, [J]⟩ ∧
      ∀ (i : Nat) (a : Agent), sys.agents[i]? = some a → AgentOK0 now D J a) ∨
    (∃ h, h ∈ B ∧ sys.db = ⟨claimedDevs D h J.id, [jobClaim J h now]⟩ ∧
      ∀ (i : Nat) (a : Agent), sys.agents[i]? = some a →
        (a.board = h → a.phase = APhase.done (some (setKV J.definition "target" h))) ∧
        (¬ a.board = h → AgentOK0 now D J a ∨ a.phase = APhase.done none)))

/-- A SUBMITTED job used by the concrete scenarios below. -/
def exJob : Job :=
  { id := 1
    definition := [("n", "1")]
    status := JobStatus.SUBMITTED
    requested_device := none
    requested_device_type := none
    submit_time := 0
    start_time := none
    end_time := none
    actual_device := none
    log_file := none
    results_link := none }

/-- An idle device used by the concrete scenarios below. -/
def exDev : Device :=
  { hostname := "d", device_type := "t", status := DeviceStatus.IDLE, current_job := none }

/-- A job targeted at a different device whose `requested_device_type`
matches device `d`; the spec's clause rejects it for `d`, the code's filter
accepts it. -/
def exC1_job : Job :=
  { exJob with requested_device := some "other", requested_device_type := some "t" }

/-- C1 scenario: the only job is targeted at a different device but its
`requested_device_type` matches; the spec's clause rejects it. -/
def exC1_st : St :=
  { devices := [exDev], jobs := [exC1_job] }

/-- C3 scenario: a job targeted at a *different* device (matched via its
type) with an earlier submit time, against a job targeted directly at this
device with a later submit time. -/
def exC3_st : St :=
  { devices := [exDev]
    jobs :=
      [{ exJob with
           id := 1
           definition := [("n", "1")]
           requested_device := some "other"
           requested_device_type := some "t"
           submit_time := 1 },
       { exJob with
           id := 2
           definition := [("n", "2")]
           requested_device := some "d"
           submit_time := 5 }] }

/-- C3 witness scenario: a directly-targeted job (later submit) against a
type-only job (earlier submit); the targeted tier wins. -/
def exC3w_st : St :=
  { devices := [exDev]
    jobs :=
      [{ exJob with
           id := 1
           definition := [("n", "1")]
           requested_device := none
           requested_device_type := some "t"
           submit_time := 1 },
       { exJob with
           id := 2
           definition := [("n", "2")]
           requested_device := some "d"
           submit_time := 5 }] }

/-- The directly-targeted job of the C3 witness scenario (id 2). -/
def exC3w_target : Job :=
  { exJob with
      id := 2
      definition := [("n", "2")]
      requested_device := some "d"
      submit_time := 5 }

/-- A running device attached to job 1. -/
def exC2_dev : Device :=
  { exDev with status := DeviceStatus.RUNNING, current_job := some 1 }

/-- Job 1 while running. -/
def exC2_job : Job :=
  { exJob with status := JobStatus.RUNNING }

/-- A store with a running device attached to a running job (the normal
state when `jobCompleted` or `jobOobData` arrives). -/
def exC2_st : St :=
  { devices := [exC2_dev], jobs := [exC2_job] }

/-- A fresh transactional scope over `exC2_st` with a cached connection. -/
def exC2_env : DbEnv :=
  { conn := some false, tx := ⟨exC2_st, exC2_st⟩ }

/-- The pending state `jobCompleted_impl` builds from `exC2_st` with exit
code 0: device idle and detached, job COMPLETE with its end time. -/
def exC2_after : St :=
  { devices := [{ exDev with status := DeviceStatus.IDLE, current_job := none }]
    jobs := [{ exJob with status := JobStatus.COMPLETE, end_time := some 9 }] }

/-- The one type-only qualifying job of the C5 scenario. -/
def exC5_job : Job :=
  { exJob with requested_device_type := some "t" }

/-- C5 scenario, read state: device idle, one type-only SUBMITTED job. -/
def exC5_rd : St :=
  { devices := [exDev], jobs := [exC5_job] }

/-- C5 scenario, constraint-check state: a concurrent claim by another
device committed between our read and our `device.save()`. -/
def exC5_ck : St :=
  { devices :=
      [exDev,
       { hostname := "other"
         device_type := "t"
         status := DeviceStatus.RUNNING
         current_job := some 1 }]
    jobs := [{ exC5_job with status := JobStatus.RUNNING }] }

/-- The staged claim the C5 read produces. -/
def exC5_p : Pend :=
  pendFor exDev exC5_job 0

/-- C10 scenario: a device with no attached job. -/
def exC10_st : St :=
  { devices := [exDev], jobs := [] }

/-- C9 counterexample scenario: one idle device, one qualifying job, and two
concurrent `getJobForBoard` invocations for the *same* board. -/
def exC9_sys : Sys :=
  { db := { devices := [exDev], jobs := [{ exJob with requested_device_type := some "t" }] }
    agents := [⟨"d", APhase.toRead⟩, ⟨"d", APhase.toRead⟩] }

/-- C9 witness scenario: two distinct idle boards of the same type. -/
def exC9w_D : List Device :=
  [{ hostname := "a", device_type := "t", status := DeviceStatus.IDLE, current_job := none },
   { hostname := "b", device_type := "t", status := DeviceStatus.IDLE, current_job := none }]

/-- C9 witness scenario: the one qualifying type-only job. -/
def exC9w_J : Job :=
  { exJob with requested_device_type := some "t" }

/-- Project the JSON payload out of a run result. -/
def runResultJson : RunResult → Option (List (String × String))
  | .returnedJob r _ => some r
  | _ => none

/-- Initial system of the single-job race: store `⟨D, [J]⟩` and one agent
per board, all about to read. -/
def sysStart (D : List Device) (J : Job) (B : List String) : Sys :=
  ⟨⟨D, [J]⟩, B.map (fun b => ⟨b, APhase.toRead⟩)⟩

theorem keyLt_irrefl (p : Nat × Nat) : keyLt p p = false := by
  simp [keyLt]

theorem keyLt_asymm {p q : Nat × Nat} (h : keyLt p q = true) : keyLt q p = false := by
  simp only [keyLt, decide_eq_true_eq, decide_eq_false_iff_not] at h ⊢
  omega

theorem pickMin_eq_none {l : List Job} : pickMin l = none ↔ l = [] := by
  cases l with
  | nil => simp [pickMin]
  | cons j rest =>
    apply iff_of_false ?_ (by simp)
    cases hr : pickMin rest with
    | none => simp [pickMin, hr]
    | some b =>
      simp only [pickMin, hr]
      split <;> simp

theorem pickMin_mem {l : List Job} {b : Job} (h : pickMin l = some b) : b ∈ l := by
  induction l generalizing b with
  | nil => simp [pickMin] at h
  | cons j rest ih =>
    cases hr : pickMin rest with
    | none =>
      simp only [pickMin, hr] at h
      cases h
      exact List.mem_cons_self j rest
    | some c =>
      simp only [pickMin, hr] at h
      by_cases hk : keyLt (jobKey c) (jobKey j) = true
      · rw [if_pos hk] at h
        cases h
        exact List.mem_cons_of_mem j (ih hr)
      · rw [if_neg hk] at h
        cases h
        exact List.mem_cons_self j rest

theorem pickMin_strict {l : List Job} {j : Job} (hm : j ∈ l)
    (hmin : ∀ x ∈ l, ¬ x = j → keyLt (jobKey j) (jobKey x) = true) :
    pickMin l = some j := by
  induction l with
  | nil => cases hm
  | cons x rest ih =>
    rcases List.mem_cons.mp hm with hx | hrest
    · cases hr : pickMin rest with
      | none => simp [pickMin, hr, hx]
      | some b =>
        simp only [pickMin, hr]
        by_cases hbj : b = j
        · rw [← hx]
          rw [hbj, keyLt_irrefl]
          simp
        · have hlt := hmin b (List.mem_cons_of_mem _ (pickMin_mem hr)) hbj
          rw [← hx]
          rw [keyLt_asymm hlt]
          simp
    · have hrec : pickMin rest = some j :=
        ih hrest (fun y hy => hmin y (List.mem_cons_of_mem _ hy))
      simp only [pickMin, hrec]
      by_cases hxj : x = j
      · rw [hxj, keyLt_irrefl]
        simp [hxj]
      · rw [hmin x (List.mem_cons_self x rest) hxj]
        simp

theorem selectJob_eq_none {st : St} {d : Device} :
    selectJob st d = none ↔ ∀ j ∈ st.jobs, isCandidate d j = false := by
  simp [selectJob, pickMin_eq_none, List.filter_eq_nil_iff]

theorem selectJob_some {st : St} {d : Device} {j : Job} (h : selectJob st d = some j) :
    j ∈ st.jobs ∧ isCandidate d j = true :=
  List.mem_filter.mp (pickMin_mem h)

theorem selectJob_strict {st : St} {d : Device} {j : Job} (hm : j ∈ st.jobs)
    (hc : isCandidate d j = true)
    (hmin : ∀ x ∈ st.jobs, isCandidate d x = true → ¬ x = j →
      keyLt (jobKey j) (jobKey x) = true) :
    selectJob st d = some j :=
  pickMin_strict (List.mem_filter.mpr ⟨hm, hc⟩)
    (fun x hx hne =>
      hmin x (List.mem_filter.mp hx).1 (List.mem_filter.mp hx).2 hne)

theorem isCandidate_submitted {d : Device} {j : Job} (h : isCandidate d j = true) :
    j.status = JobStatus.SUBMITTED := by
  simp only [isCandidate, Bool.and_eq_true, decide_eq_true_eq] at h
  exact h.1

theorem findDeviceL_hostname {l : List Device} {b : String} {d : Device}
    (h : findDeviceL l b = some d) : d.hostname = b := by
  have := List.find?_some h
  simpa using this

theorem findDeviceL_mem {l : List Device} {b : String} {d : Device}
    (h : findDeviceL l b = some d) : d ∈ l :=
  List.mem_of_find?_eq_some h

theorem findJob_id {st : St} {jid : Nat} {j : Job} (h : findJob st jid = some j) :
    j.id = jid := by
  have := List.find?_some h
  simpa using this

theorem findDeviceL_map_preserve {l : List Device} {b : String} {f : Device → Device}
    (hf : ∀ d ∈ l, (f d).hostname = d.hostname) :
    findDeviceL (l.map f) b = (findDeviceL l b).map f := by
  induction l with
  | nil => rfl
  | cons x rest ih =>
    simp only [findDeviceL, List.map_cons, List.find?] at ih ⊢
    rw [hf x (List.mem_cons_self x rest)]
    cases hx : decide (x.hostname = b) with
    | true => rfl
    | false => exact ih (fun d hd => hf d (List.mem_cons_of_mem _ hd))

theorem findDevice_updateClaim {st : St} {b : String} {device : Device} (dn : Device) (j1 : Job)
    (hdev : findDevice st b = some device) (hn : dn.hostname = device.hostname) :
    findDevice (updateJob (updateDevice st dn) j1) b = some dn := by
  have hb : device.hostname = b := findDeviceL_hostname hdev
  have hpres : ∀ d ∈ st.devices, ((fun x => if x.hostname = dn.hostname then dn else x) d).hostname = d.hostname := by
    intro d _
    by_cases hcase : d.hostname = dn.hostname
    · simp [hcase, hn.trans hb, hcase.trans]
    · simp [hcase]
  show findDeviceL (st.devices.map _) b = some dn
  rw [findDeviceL_map_preserve hpres]
  show (findDeviceL st.devices b).map _ = some dn
  rw [show findDeviceL st.devices b = some device from hdev]
  simp [hn, hb]

theorem findJob_isSome_of_mem (st : St) {j : Job} (h : j ∈ st.jobs) :
    (findJob st j.id).isSome := by
  rw [Option.isSome_iff_exists]
  have : ∃ x, st.jobs.find? (fun x => decide (x.id = j.id)) = some x := by
    rw [← Option.isSome_iff_exists, List.find?_isSome]
    exact ⟨j, h, by simp⟩
  exact this

theorem findJob_update {st : St} {jid : Nat} {jn : Job}
    (h : (findJob st jid).isSome) (hid : jn.id = jid) :
    findJob (updateJob st jn) jid = some jn := by
  rcases Option.isSome_iff_exists.mp h with ⟨j0, hj0⟩
  have hj0id : j0.id = jid := findJob_id hj0
  have hpres : ∀ x ∈ st.jobs, ((fun y => if y.id = jn.id then jn else y) x).id = x.id := by
    intro x _
    by_cases hcase : x.id = jn.id
    · simp [hcase]
    · simp [hcase]
  show (st.jobs.map _).find? _ = some jn
  have : (st.jobs.map (fun y => if y.id = jn.id then jn else y)).find?
      (fun x => decide (x.id = jid)) =
      (st.jobs.find? (fun x => decide (x.id = jid))).map
        (fun y => if y.id = jn.id then jn else y) := by
    induction st.jobs with
    | nil => rfl
    | cons x rest ih =>
      simp only [List.map_cons, List.find?]
      by_cases hcase : x.id = jn.id
      · simp [hcase, hid]
      · have : ¬ x.id = jid := by rw [← hid]; exact hcase
        simp [hcase, this, ih]
  rw [this]
  have hj0u : List.find? (fun x => decide (x.id = jid)) st.jobs = some j0 := hj0
  rw [hj0u]
  simp [hj0id, hid]

theorem agentRead_claim (now : Nat) {st : St} {board : String} {device : Device} {job : Job}
    (hdev : findDevice st board = some device) (hidle : device.status = DeviceStatus.IDLE)
    (hsel : selectJob st device = some job) :
    agentRead now st board = ReadStep.claim (pendFor device job now) := by
  simp [agentRead, hdev, hidle, hsel, pendFor, devClaim, jobClaim]

theorem agentRead_notIdle (now : Nat) {st : St} {board : String} {device : Device}
    (hdev : findDevice st board = some device) (hn : ¬ device.status = DeviceStatus.IDLE) :
    agentRead now st board = ReadStep.noJob := by
  simp [agentRead, hdev, hn]

theorem agentRead_noCandidate (now : Nat) {st : St} {board : String} {device : Device}
    (hdev : findDevice st board = some device) (hidle : device.status = DeviceStatus.IDLE)
    (hsel : selectJob st device = none) :
    agentRead now st board = ReadStep.noJob := by
  simp [agentRead, hdev, hidle, hsel]

theorem agentCommit_consistent (p : Pend) {st : St} {job : Job}
    (hcons : Consistent st) (hmem : job ∈ st.jobs) (hsub : job.status = JobStatus.SUBMITTED)
    (hid : p.job.id = job.id) :
    agentCommit st p = some (updateJob (updateDevice st p.device) p.job) := by
  unfold agentCommit
  rw [if_neg]
  intro hany
  rcases List.any_eq_true.mp hany with ⟨d, hd, hcond⟩
  simp only [Bool.and_eq_true, Bool.not_eq_true', decide_eq_false_iff_not,
    decide_eq_true_eq] at hcond
  exact hcons d hd job hmem (hid ▸ hcond.2) hsub

theorem seq_success (now : Nat) {st : St} {board : String} {device : Device} {job : Job}
    (hdev : findDevice st board = some device) (hidle : device.status = DeviceStatus.IDLE)
    (hsel : selectJob st device = some job) (hcons : Consistent st) :
    getJobForBoard_seq board now st 1 =
      RunResult.returnedJob (setKV job.definition "target" device.hostname)
        (updateJob (updateDevice st (devClaim device job.id))
          (jobClaim job device.hostname now)) := by
  have hr := agentRead_claim now hdev hidle hsel
  have hmc := selectJob_some hsel
  have hc := agentCommit_consistent (pendFor device job now) hcons hmc.1
    (isCandidate_submitted hmc.2) rfl
  simp only [pendFor] at hr hc
  simp [getJobForBoard_seq, getJobForBoard_run, hr, hc]

theorem consistent_of_all_detached {st : St} (h : ∀ d ∈ st.devices, d.current_job = none) :
    Consistent st := by
  intro d hd j _ hcur
  rw [h d hd] at hcur
  simp at hcur

/-- Claim C1 (counterexample): the spec's targeting clause requires
`requested_device is null` for a type-only match, but the source filter does
not.  In `exC1_st` the device is idle and no job satisfies the spec's
clause, yet `getJobForBoard` returns a job. -/
theorem getJobForBoard_targeting_clause_counterexample :
    findDevice exC1_st "d" = some exDev ∧
    exDev.status = DeviceStatus.IDLE ∧
    Consistent exC1_st ∧
    exC1_st.jobs.all (fun j => ! specTargetingClause exDev j) = true ∧
    isJobResult (getJobForBoard_seq "d" 7 exC1_st 1) = true ∧
    runResultJson (getJobForBoard_seq "d" 7 exC1_st 1) =
      some [("n", "1"), ("target", "d")] := by
  refine ⟨rfl, rfl, ?_, rfl, rfl, rfl⟩
  exact consistent_of_all_detached (by decide)

/-- Claim C1 (amended): for a device that is not IDLE the call returns none;
for an IDLE device it returns a job if and only if some job has status
SUBMITTED and `requested_device == D` or
`requested_device_type == D.device_type` (the null test of the spec's clause
is absent from the code), and returns none otherwise. -/
theorem getJobForBoard_matching (st : St) (board : String) (now : Nat) (device : Device)
    (hdev : findDevice st board = some device) (hcons : Consistent st) :
    (¬ device.status = DeviceStatus.IDLE →
      getJobForBoard_seq board now st 1 = RunResult.returnedNone) ∧
    (device.status = DeviceStatus.IDLE →
      isJobResult (getJobForBoard_seq board now st 1) = st.jobs.any (isCandidate device) ∧
      (st.jobs.any (isCandidate device) = false →
        getJobForBoard_seq board now st 1 = RunResult.returnedNone)) := by
  constructor
  · intro hn
    have hrd := agentRead_notIdle now hdev hn
    simp [getJobForBoard_seq, getJobForBoard_run, hrd]
  · intro hidle
    cases hsel : selectJob st device with
    | none =>
      have hno := selectJob_eq_none.mp hsel
      have hany : st.jobs.any (isCandidate device) = false := by
        rw [List.any_eq_false]
        intro x hx
        simp [hno x hx]
      have hrd := agentRead_noCandidate now hdev hidle hsel
      refine ⟨?_, fun _ => ?_⟩ <;>
        simp [getJobForBoard_seq, getJobForBoard_run, hrd, isJobResult, hany]
    | some job =>
      have hrun := seq_success now hdev hidle hsel hcons
      have hmc := selectJob_some hsel
      have hany : st.jobs.any (isCandidate device) = true :=
        List.any_eq_true.mpr ⟨job, hmc.1, hmc.2⟩
      rw [hrun, hany]
      exact ⟨rfl, fun hfalse => by cases hfalse⟩

/-- Claim C2: `jobCompleted_impl` saves the device and job rows but never
commits, and `deferForDB` rolls the scope back unconditionally, so on a
normal completion (`exC2_st`, exit code 0) the call returns successfully
while the committed store is left exactly as it was: the device is still
RUNNING and attached, the job still RUNNING with no end time — even though
the impl had computed the detached/IDLE/COMPLETE rows before rollback. -/
theorem jobCompleted_updates_discarded :
    (jobCompleted "d" 9 0 exC2_env).2 = Except.ok () ∧
    (jobCompleted "d" 9 0 exC2_env).1.tx.committed = exC2_st ∧
    (jobCompleted "d" 9 0 exC2_env).1.tx.pending = exC2_st ∧
    jobCompleted_impl "d" 9 0 exC2_st = Except.ok exC2_after ∧
    ¬ exC2_after = exC2_st := by
  refine ⟨rfl, by decide, by decide, rfl, by decide⟩

/-- Claim C3 (counterexample): in `exC3_st` job 2 is targeted directly at
this device while job 1 is targeted at a *different* device and reaches the
candidate set only through its matching type, with an earlier submit time.
The spec ranks job 2 first; the code puts both in the `is_targeted` tier and
returns job 1. -/
theorem getJobForBoard_selection_counterexample :
    findDevice exC3_st "d" = some exDev ∧
    exDev.status = DeviceStatus.IDLE ∧
    Consistent exC3_st ∧
    exC3_st.jobs.map (fun j => (j.id, j.requested_device, j.submit_time, isCandidate exDev j)) =
      [(1, some "other", 1, true), (2, some "d", 5, true)] ∧
    runResultJson (getJobForBoard_seq "d" 7 exC3_st 1) =
      some [("n", "1"), ("target", "d")] := by
  refine ⟨rfl, rfl, ?_, rfl, rfl⟩
  exact consistent_of_all_detached (by decide)

/-- Claim C3 (amended): among the code's candidates, any job with a
non-null `requested_device` (whatever device it names) ranks ahead of every
job with `requested_device` null, and within a tier the job with the
strictly earliest submit time is selected: whenever candidate `j` beats
every other candidate under that order, the claimed job is `j`. -/
theorem getJobForBoard_selection_order (st : St) (board : String) (now : Nat)
    (device : Device) (j : Job)
    (hdev : findDevice st board = some device) (hidle : device.status = DeviceStatus.IDLE)
    (hcons : Consistent st) (hmem : j ∈ st.jobs) (hcand : isCandidate device j = true)
    (hmin : ∀ x ∈ st.jobs, isCandidate device x = true → ¬ x = j →
      keyLt (jobKey j) (jobKey x) = true) :
    getJobForBoard_seq board now st 1 =
      RunResult.returnedJob (setKV j.definition "target" device.hostname)
        (updateJob (updateDevice st (devClaim device j.id))
          (jobClaim j device.hostname now)) :=
  seq_success now hdev hidle (selectJob_strict hmem hcand hmin) hcons

/-- Claim C4: whenever the claim succeeds, the returned value is the job's
definition with `target` set to the device hostname, and in the committed
state the device row is RUNNING and holds the job while the job row is
RUNNING with its start time, actual device and log file set — all written by
the one commit. -/
theorem getJobForBoard_success_claim (st : St) (board : String) (now : Nat)
    (device : Device) (job : Job)
    (hdev : findDevice st board = some device) (hidle : device.status = DeviceStatus.IDLE)
    (hsel : selectJob st device = some job) (hcons : Consistent st) :
    getJobForBoard_seq board now st 1 =
      RunResult.returnedJob (setKV job.definition "target" device.hostname)
        (updateJob (updateDevice st (devClaim device job.id))
          (jobClaim job device.hostname now)) ∧
    findDevice
        (updateJob (updateDevice st (devClaim device job.id))
          (jobClaim job device.hostname now)) board =
      some { device with status := DeviceStatus.RUNNING, current_job := some job.id } ∧
    findJob
        (updateJob (updateDevice st (devClaim device job.id))
          (jobClaim job device.hostname now)) job.id =
      some { job with
          status := JobStatus.RUNNING
          start_time := some now
          actual_device := some device.hostname
          log_file := some (logName job.id) } := by
  refine ⟨seq_success now hdev hidle hsel hcons, ?_, ?_⟩
  · exact findDevice_updateClaim _ _ hdev rfl
  · have hmem := (selectJob_some hsel).1
    have hsome : (findJob (updateDevice st (devClaim device job.id)) job.id).isSome :=
      findJob_isSome_of_mem (updateDevice st (devClaim device job.id)) hmem
    exact findJob_update hsome rfl

/-- Claim C5: when the uniqueness constraint on `current_job` rejects the
device write (some other device row already holds the chosen job in the
state the save is checked against), the attempt's staged writes are
discarded and the loop restarts from the top on the remaining states — the
caller sees the result of the continued loop, never the IntegrityError. -/
theorem getJobForBoard_conflict_retry (board : String) (now : Nat) (rd ck : St)
    (rest : List (St × St)) (p : Pend)
    (hread : agentRead now rd board = ReadStep.claim p)
    (hconf : ck.devices.any (fun d =>
      !(decide (d.hostname = p.device.hostname)) &&
        decide (d.current_job = some p.job.id)) = true) :
    getJobForBoard_run board now ((rd, ck) :: rest) = getJobForBoard_run board now rest := by
  simp [getJobForBoard_run, hread, agentCommit, hconf]

/-- Claim C6: with a device found and a job attached, `jobCompleted_impl`
succeeds and writes exactly the claimed transitions: the device row goes
RUNNING→IDLE, OFFLINING→OFFLINE, anything else is forced to IDLE, and is
detached; the job row goes RUNNING→COMPLETE when the exit code is 0,
RUNNING→INCOMPLETE otherwise, CANCELING→CANCELED regardless of exit code,
anything else is forced to COMPLETE, and gets its end time. -/
theorem jobCompleted_transition_table (st : St) (board : String) (now : Nat) (ec : Int)
    (device : Device) (jid : Nat) (job : Job)
    (hdev : findDevice st board = some device) (hcur : device.current_job = some jid)
    (hjob : findJob st jid = some job) :
    jobCompleted_impl board now ec st =
      Except.ok
        (updateJob
          (updateDevice st
            { device with
                status :=
                  if device.status = DeviceStatus.RUNNING then DeviceStatus.IDLE
                  else if device.status = DeviceStatus.OFFLINING then DeviceStatus.OFFLINE
                  else DeviceStatus.IDLE
                current_job := none })
          { job with
              status :=
                if job.status = JobStatus.RUNNING then
                  (if ec = 0 then JobStatus.COMPLETE else JobStatus.INCOMPLETE)
                else if job.status = JobStatus.CANCELING then JobStatus.CANCELED
                else JobStatus.COMPLETE
              end_time := some now }) ∧
    findDevice
        (updateJob
          (updateDevice st
            { device with
                status :=
                  if device.status = DeviceStatus.RUNNING then DeviceStatus.IDLE
                  else if device.status = DeviceStatus.OFFLINING then DeviceStatus.OFFLINE
                  else DeviceStatus.IDLE
                current_job := none })
          { job with
              status :=
                if job.status = JobStatus.RUNNING then
                  (if ec = 0 then JobStatus.COMPLETE else JobStatus.INCOMPLETE)
                else if job.status = JobStatus.CANCELING then JobStatus.CANCELED
                else JobStatus.COMPLETE
              end_time := some now }) board =
      some { device with
          status :=
            if device.status = DeviceStatus.RUNNING then DeviceStatus.IDLE
            else if device.status = DeviceStatus.OFFLINING then DeviceStatus.OFFLINE
            else DeviceStatus.IDLE
          current_job := none } ∧
    findJob
        (updateJob
          (updateDevice st
            { device with
                status :=
                  if device.status = DeviceStatus.RUNNING then DeviceStatus.IDLE
                  else if device.status = DeviceStatus.OFFLINING then DeviceStatus.OFFLINE
                  else DeviceStatus.IDLE
                current_job := none })
          { job with
              status :=
                if job.status = JobStatus.RUNNING then
                  (if ec = 0 then JobStatus.COMPLETE else JobStatus.INCOMPLETE)
                else if job.status = JobStatus.CANCELING then JobStatus.CANCELED
                else JobStatus.COMPLETE
              end_time := some now }) jid =
      some { job with
          status :=
            if job.status = JobStatus.RUNNING then
              (if ec = 0 then JobStatus.COMPLETE else JobStatus.INCOMPLETE)
            else if job.status = JobStatus.CANCELING then JobStatus.CANCELED
            else JobStatus.COMPLETE
          end_time := some now } := by
  have hjid : job.id = jid := findJob_id hjob
  refine ⟨?_, ?_, ?_⟩
  · simp [jobCompleted_impl, hdev, hcur, hjob]
  · exact findDevice_updateClaim _ _ hdev rfl
  · have hsome : (findJob
        (updateDevice st
          { device with
              status :=
                if device.status = DeviceStatus.RUNNING then DeviceStatus.IDLE
                else if device.status = DeviceStatus.OFFLINING then DeviceStatus.OFFLINE
                else DeviceStatus.IDLE
              current_job := none }) jid).isSome := by
      show (findJob st jid).isSome
      rw [hjob]
      rfl
    exact findJob_update hsome hjid

/-- Claim C7: for a unit of work that raises, the wrapper re-raises the very
same error to its caller (it never retries), ends with the scope rolled back,
and the cached connection is discarded if and only if the error is a store
error carrying one of the three dead-connection messages. -/
theorem deferForDB_error_classification (f : TxState → TxState) (e : PyError) (env : DbEnv) :
    (deferForDB (fun ts => (f ts, (Except.error e : Except PyError Unit))) env).2 =
      Except.error e ∧
    ((deferForDB (fun ts => (f ts, (Except.error e : Except PyError Unit))) env).1.conn = none ↔
      isDeadError e = true) ∧
    (deferForDB (fun ts => (f ts, (Except.error e : Except PyError Unit))) env).1.tx.pending =
      (deferForDB (fun ts => (f ts, (Except.error e : Except PyError Unit))) env).1.tx.committed := by
  have hconn : ∀ c : Option Bool, ¬ ensureConn c = none := by
    intro c
    cases c <;> simp [ensureConn]
  refine ⟨rfl, ?_, rfl⟩
  cases e with
  | storeError m =>
    cases h : isDeadConnectionMessage m with
    | true => simp [deferForDB, isDeadError, h]
    | false => simp [deferForDB, isDeadError, h, hconn env.conn]
  | doesNotExist => simp [deferForDB, isDeadError, hconn env.conn]
  | attributeError => simp [deferForDB, isDeadError, hconn env.conn]
  | valueError => simp [deferForDB, isDeadError, hconn env.conn]

/-- Claim C8: `jobOobData` with key `dashboard-put-result` sets the current
job's `results_link` to the value and commits it at once; with any other key
it raises nothing and leaves the store untouched. -/
theorem jobOobData_behavior (env : DbEnv) (st : St) (board key value : String)
    (hts : env.tx = ⟨st, st⟩) :
    (∀ device jid job,
      findDevice st board = some device → device.current_job = some jid →
      findJob st jid = some job → key = "dashboard-put-result" →
      jobOobData board key value env =
        (⟨ensureConn env.conn,
          ⟨updateJob st { job with results_link := some value },
           updateJob st { job with results_link := some value }⟩⟩, Except.ok ())) ∧
    (¬ key = "dashboard-put-result" →
      jobOobData board key value env = (⟨ensureConn env.conn, ⟨st, st⟩⟩, Except.ok ())) := by
  constructor
  · intro device jid job hdev hcur hjob hkey
    subst hkey
    simp [jobOobData, deferForDB, jobOobData_impl, hts, hdev, hcur, hjob]
  · intro hkey
    simp [jobOobData, deferForDB, jobOobData_impl, if_neg hkey, hts]

/-- Witness for claim C1: on the concrete store `exC1_st` the hypotheses of
the matching theorem hold and its conclusion evaluates. -/
theorem getJobForBoard_matching_witness :
    findDevice exC1_st "d" = some exDev ∧ Consistent exC1_st ∧
    ((¬ exDev.status = DeviceStatus.IDLE →
        getJobForBoard_seq "d" 7 exC1_st 1 = RunResult.returnedNone) ∧
     (exDev.status = DeviceStatus.IDLE →
        isJobResult (getJobForBoard_seq "d" 7 exC1_st 1) =
          exC1_st.jobs.any (isCandidate exDev) ∧
        (exC1_st.jobs.any (isCandidate exDev) = false →
          getJobForBoard_seq "d" 7 exC1_st 1 = RunResult.returnedNone))) :=
  ⟨rfl, consistent_of_all_detached (by decide),
    getJobForBoard_matching exC1_st "d" 7 exDev rfl (consistent_of_all_detached (by decide))⟩

/-- Witness for claim C3: on `exC3w_st` the directly-targeted job 2 is the
strict minimum of the candidate order and is the one claimed, ahead of the
earlier-submitted type-only job 1. -/
theorem getJobForBoard_selection_order_witness :
    exC3w_target ∈ exC3w_st.jobs ∧ isCandidate exDev exC3w_target = true ∧
    (∀ x ∈ exC3w_st.jobs, isCandidate exDev x = true → ¬ x = exC3w_target →
      keyLt (jobKey exC3w_target) (jobKey x) = true) ∧
    getJobForBoard_seq "d" 7 exC3w_st 1 =
      RunResult.returnedJob (setKV exC3w_target.definition "target" exDev.hostname)
        (updateJob (updateDevice exC3w_st (devClaim exDev exC3w_target.id))
          (jobClaim exC3w_target exDev.hostname 7)) :=
  ⟨by decide, by decide, by decide,
    getJobForBoard_selection_order exC3w_st "d" 7 exDev exC3w_target rfl rfl
      (consistent_of_all_detached (by decide)) (by decide) (by decide) (by decide)⟩

/-- Witness for claim C4: the concrete claim on `exC1_st` commits the four
updates and returns the definition with `target` injected. -/
theorem getJobForBoard_success_claim_witness :
    selectJob exC1_st exDev = some exC1_job ∧
    (getJobForBoard_seq "d" 7 exC1_st 1 =
      RunResult.returnedJob (setKV exC1_job.definition "target" exDev.hostname)
        (updateJob (updateDevice exC1_st (devClaim exDev exC1_job.id))
          (jobClaim exC1_job exDev.hostname 7)) ∧
    findDevice
        (updateJob (updateDevice exC1_st (devClaim exDev exC1_job.id))
          (jobClaim exC1_job exDev.hostname 7)) "d" =
      some { exDev with status := DeviceStatus.RUNNING, current_job := some exC1_job.id } ∧
    findJob
        (updateJob (updateDevice exC1_st (devClaim exDev exC1_job.id))
          (jobClaim exC1_job exDev.hostname 7)) exC1_job.id =
      some { exC1_job with
          status := JobStatus.RUNNING
          start_time := some 7
          actual_device := some exDev.hostname
          log_file := some (logName exC1_job.id) }) :=
  ⟨by decide,
    getJobForBoard_success_claim exC1_st "d" 7 exDev exC1_job rfl rfl (by decide)
      (consistent_of_all_detached (by decide))⟩

/-- Witness for claim C5: the staged claim of `exC5_rd` hits the uniqueness
constraint in `exC5_ck` (the other board committed first) and the loop
continues on the remaining states. -/
theorem getJobForBoard_conflict_retry_witness :
    agentRead 0 exC5_rd "d" = ReadStep.claim exC5_p ∧
    exC5_ck.devices.any (fun d =>
      !(decide (d.hostname = exC5_p.device.hostname)) &&
        decide (d.current_job = some exC5_p.job.id)) = true ∧
    getJobForBoard_run "d" 0 ((exC5_rd, exC5_ck) :: [(exC5_ck, exC5_ck)]) =
      getJobForBoard_run "d" 0 [(exC5_ck, exC5_ck)] :=
  ⟨by decide, by decide,
    getJobForBoard_conflict_retry "d" 0 exC5_rd exC5_ck [(exC5_ck, exC5_ck)] exC5_p
      (by decide) (by decide)⟩

/-- Witness for claim C6: completing `exC2_st` (running device, running
job, exit code 0) writes the IDLE/detached device row and the
COMPLETE/stamped job row. -/
theorem jobCompleted_transition_table_witness :
    findDevice exC2_st "d" = some exC2_dev ∧ exC2_dev.current_job = some 1 ∧
    findJob exC2_st 1 = some exC2_job ∧
    (jobCompleted_impl "d" 9 0 exC2_st =
      Except.ok
        (updateJob
          (updateDevice exC2_st
            { exC2_dev with
                status :=
                  if exC2_dev.status = DeviceStatus.RUNNING then DeviceStatus.IDLE
                  else if exC2_dev.status = DeviceStatus.OFFLINING then DeviceStatus.OFFLINE
                  else DeviceStatus.IDLE
                current_job := none })
          { exC2_job with
              status :=
                if exC2_job.status = JobStatus.RUNNING then
                  (if (0 : Int) = 0 then JobStatus.COMPLETE else JobStatus.INCOMPLETE)
                else if exC2_job.status = JobStatus.CANCELING then JobStatus.CANCELED
                else JobStatus.COMPLETE
              end_time := some 9 }) ∧
    findDevice
        (updateJob
          (updateDevice exC2_st
            { exC2_dev with
                status :=
                  if exC2_dev.status = DeviceStatus.RUNNING then DeviceStatus.IDLE
                  else if exC2_dev.status = DeviceStatus.OFFLINING then DeviceStatus.OFFLINE
                  else DeviceStatus.IDLE
                current_job := none })
          { exC2_job with
              status :=
                if exC2_job.status = JobStatus.RUNNING then
                  (if (0 : Int) = 0 then JobStatus.COMPLETE else JobStatus.INCOMPLETE)
                else if exC2_job.status = JobStatus.CANCELING then JobStatus.CANCELED
                else JobStatus.COMPLETE
              end_time := some 9 }) "d" =
      some { exC2_dev with
          status :=
            if exC2_dev.status = DeviceStatus.RUNNING then DeviceStatus.IDLE
            else if exC2_dev.status = DeviceStatus.OFFLINING then DeviceStatus.OFFLINE
            else DeviceStatus.IDLE
          current_job := none } ∧
    findJob
        (updateJob
          (updateDevice exC2_st
            { exC2_dev with
                status :=
                  if exC2_dev.status = DeviceStatus.RUNNING then DeviceStatus.IDLE
                  else if exC2_dev.status = DeviceStatus.OFFLINING then DeviceStatus.OFFLINE
                  else DeviceStatus.IDLE
                current_job := none })
          { exC2_job with
              status :=
                if exC2_job.status = JobStatus.RUNNING then
                  (if (0 : Int) = 0 then JobStatus.COMPLETE else JobStatus.INCOMPLETE)
                else if exC2_job.status = JobStatus.CANCELING then JobStatus.CANCELED
                else JobStatus.COMPLETE
              end_time := some 9 }) 1 =
      some { exC2_job with
          status :=
            if exC2_job.status = JobStatus.RUNNING then
              (if (0 : Int) = 0 then JobStatus.COMPLETE else JobStatus.INCOMPLETE)
            else if exC2_job.status = JobStatus.CANCELING then JobStatus.CANCELED
            else JobStatus.COMPLETE
          end_time := some 9 }) :=
  ⟨rfl, rfl, rfl, jobCompleted_transition_table exC2_st "d" 9 0 exC2_dev 1 exC2_job rfl rfl rfl⟩

/-- Witness for claim C8: on `exC2_st` the recognized key commits the
results link while an unknown key changes nothing and succeeds. -/
theorem jobOobData_behavior_witness :
    jobOobData "d" "dashboard-put-result" "http://x" exC2_env =
      (⟨ensureConn exC2_env.conn,
        ⟨updateJob exC2_st { exC2_job with results_link := some "http://x" },
         updateJob exC2_st { exC2_job with results_link := some "http://x" }⟩⟩,
       Except.ok ()) ∧
    jobOobData "d" "unknown-key" "v" exC2_env =
      (⟨ensureConn exC2_env.conn, ⟨exC2_st, exC2_st⟩⟩, Except.ok ()) :=
  ⟨(jobOobData_behavior exC2_env exC2_st "d" "dashboard-put-result" "http://x" rfl).1
      exC2_dev 1 exC2_job rfl rfl rfl rfl,
   (jobOobData_behavior exC2_env exC2_st "d" "unknown-key" "v" rfl).2 (by decide)⟩

/-- Claim C10: when a device has no attached job, each of the log-file
fetch, the completion handler and the cancellation check dereferences the
absent job and raises (an `AttributeError` on `None`), rather than
returning a result. -/
theorem missing_current_job_raises (st : St) (board : String) (now : Nat) (ec : Int)
    (device : Device)
    (hdev : findDevice st board = some device) (hnone : device.current_job = none) :
    getLogFileForJobOnBoard_impl board st = Except.error PyError.attributeError ∧
    jobCompleted_impl board now ec st = Except.error PyError.attributeError ∧
    jobCheckForCancellation_impl board st = Except.error PyError.attributeError := by
  refine ⟨?_, ?_, ?_⟩ <;>
    simp [getLogFileForJobOnBoard_impl, jobCompleted_impl, jobCheckForCancellation_impl,
      hdev, hnone]

/-- Witness for claim C10: on `exC10_st` (idle device, no attached job) all
three operations raise. -/
theorem missing_current_job_raises_witness :
    findDevice exC10_st "d" = some exDev ∧ exDev.current_job = none ∧
    (getLogFileForJobOnBoard_impl "d" exC10_st = Except.error PyError.attributeError ∧
     jobCompleted_impl "d" 0 0 exC10_st = Except.error PyError.attributeError ∧
     jobCheckForCancellation_impl "d" exC10_st = Except.error PyError.attributeError) :=
  ⟨rfl, rfl, missing_current_job_raises exC10_st "d" 0 0 exDev rfl rfl⟩

/-- Claim C9 (counterexample): two concurrent invocations for the *same*
board racing for one SUBMITTED job.  Both read before either saves; the
uniqueness constraint on `current_job` only compares distinct device rows,
so both saves succeed and both invocations return the same job — not
"exactly one" (the source comments on exactly this case). -/
theorem concurrent_same_board_double_claim :
    exC9_sys.agents = [⟨"d", APhase.toRead⟩, ⟨"d", APhase.toRead⟩] ∧
    exC9_sys.db.jobs.map (fun j => j.status) = [JobStatus.SUBMITTED] ∧
    (runSys 7 exC9_sys [0, 1, 0, 1]).agents =
      [⟨"d", APhase.done (some [("n", "1"), ("target", "d")])⟩,
       ⟨"d", APhase.done (some [("n", "1"), ("target", "d")])⟩] := by
  refine ⟨rfl, rfl, ?_⟩
  decide

theorem set_getElem?_self {α : Type} {l : List α} {i : Nat} {x : α}
    (h : l[i]? = some x) : l.set i x = l := by
  induction l generalizing i with
  | nil => simp at h
  | cons y ys ih =>
    cases i with
    | zero => simp_all
    | succ n => simp_all [List.set]

theorem getElem?_set_cases {α : Type} {l : List α} {i j : Nat} {x a' : α}
    (h : (l.set i x)[j]? = some a') : (i = j ∧ a' = x) ∨ (¬ i = j ∧ l[j]? = some a') := by
  by_cases hij : i = j
  · subst hij
    left
    refine ⟨rfl, ?_⟩
    rw [List.getElem?_set] at h
    simp only [if_pos rfl] at h
    by_cases hlen : i < l.length
    · rw [if_pos hlen] at h
      exact (Option.some_inj.mp h).symm
    · rw [if_neg hlen] at h
      cases h
  · right
    refine ⟨hij, ?_⟩
    rw [List.getElem?_set, if_neg hij] at h
    exact h

theorem nodup_getElem?_inj {α : Type} {l : List α} (hn : l.Nodup) {i j : Nat} {a : α}
    (hi : l[i]? = some a) (hj : l[j]? = some a) : i = j :=
  List.getElem?_inj (List.getElem?_eq_some.mp hi).1 hn (hi.trans hj.symm)

theorem boards_preserved {sys : Sys} {i : Nat} {a : Agent}
    (hget : sys.agents[i]? = some a) (ph : APhase) :
    (sys.agents.set i { a with phase := ph }).map (fun y => y.board) =
      sys.agents.map (fun y => y.board) := by
  rw [List.map_set]
  apply set_getElem?_self
  rw [List.getElem?_map, hget]
  rfl

theorem stepSys_get_none {now : Nat} {sys : Sys} {i : Nat}
    (h : sys.agents[i]? = none) : stepSys now sys i = sys := by
  simp [stepSys, h]

theorem stepSys_done {now : Nat} {sys : Sys} {i : Nat} {a : Agent} {r : Option (List (String × String))}
    (hget : sys.agents[i]? = some a) (hp : a.phase = APhase.done r) :
    stepSys now sys i = sys := by
  simp [stepSys, hget, hp]

theorem stepSys_failed {now : Nat} {sys : Sys} {i : Nat} {a : Agent} {e : PyError}
    (hget : sys.agents[i]? = some a) (hp : a.phase = APhase.failed e) :
    stepSys now sys i = sys := by
  simp [stepSys, hget, hp]

theorem stepSys_toRead_claim {now : Nat} {sys : Sys} {i : Nat} {a : Agent} {p : Pend}
    (hget : sys.agents[i]? = some a) (hp : a.phase = APhase.toRead)
    (hr : agentRead now sys.db a.board = ReadStep.claim p) :
    stepSys now sys i =
      { sys with agents := sys.agents.set i { a with phase := APhase.toCommit p } } := by
  simp [stepSys, hget, hp, hr]

theorem stepSys_toRead_noJob {now : Nat} {sys : Sys} {i : Nat} {a : Agent}
    (hget : sys.agents[i]? = some a) (hp : a.phase = APhase.toRead)
    (hr : agentRead now sys.db a.board = ReadStep.noJob) :
    stepSys now sys i =
      { sys with agents := sys.agents.set i { a with phase := APhase.done none } } := by
  simp [stepSys, hget, hp, hr]

theorem stepSys_toCommit_conflict {now : Nat} {sys : Sys} {i : Nat} {a : Agent} {p : Pend}
    (hget : sys.agents[i]? = some a) (hp : a.phase = APhase.toCommit p)
    (hc : agentCommit sys.db p = none) :
    stepSys now sys i =
      { sys with agents := sys.agents.set i { a with phase := APhase.toRead } } := by
  simp [stepSys, hget, hp, hc]

theorem stepSys_toCommit_success {now : Nat} {sys : Sys} {i : Nat} {a : Agent} {p : Pend} {db2 : St}
    (hget : sys.agents[i]? = some a) (hp : a.phase = APhase.toCommit p)
    (hc : agentCommit sys.db p = some db2) :
    stepSys now sys i =
      { db := db2, agents := sys.agents.set i { a with phase := APhase.done (some p.result) } } := by
  simp [stepSys, hget, hp, hc]

theorem findDeviceL_claimedDevs_ne {D : List Device} {h b : String} {jid : Nat}
    (hne : ¬ b = h) :
    findDeviceL (claimedDevs D h jid) b = findDeviceL D b := by
  have hpres : ∀ d ∈ D,
      ((fun d => if d.hostname = h then devClaim d jid else d) d).hostname = d.hostname := by
    intro d _
    by_cases hc : d.hostname = h <;> simp [hc, devClaim]
  rw [claimedDevs, findDeviceL_map_preserve hpres]
  cases hfd : findDeviceL D b with
  | none => rfl
  | some d =>
    have hdb : d.hostname = b := findDeviceL_hostname hfd
    simp [hdb, hne]

theorem findDeviceL_claimedDevs_eq {D : List Device} {h : String} {jid : Nat} {d : Device}
    (hfd : findDeviceL D h = some d) :
    findDeviceL (claimedDevs D h jid) h = some (devClaim d jid) := by
  have hpres : ∀ d ∈ D,
      ((fun d => if d.hostname = h then devClaim d jid else d) d).hostname = d.hostname := by
    intro d _
    by_cases hc : d.hostname = h <;> simp [hc, devClaim]
  rw [claimedDevs, findDeviceL_map_preserve hpres, hfd]
  simp [findDeviceL_hostname hfd]

theorem selectJob_single {st : St} {d : Device} {J : Job} (hjobs : st.jobs = [J])
    (hcand : isCandidate d J = true) : selectJob st d = some J := by
  simp [selectJob, hjobs, List.filter, hcand, pickMin]

theorem selectJob_claimed_none (J : Job) (h : String) (now : Nat) {st : St} {d : Device}
    (hjobs : st.jobs = [jobClaim J h now]) : selectJob st d = none := by
  simp [selectJob, hjobs, List.filter, isCandidate, jobClaim, pickMin]

theorem agentCommit_unclaimed {D : List Device} {J : Job} {b : String} {d : Device} (now : Nat)
    (hnodup : (D.map (fun x => x.hostname)).Nodup)
    (hnone : ∀ x ∈ D, x.current_job = none)
    (hfd : findDeviceL D b = some d) :
    agentCommit ⟨D, [J]⟩ (pendFor d J now) =
      some ⟨claimedDevs D b J.id, [jobClaim J d.hostname now]⟩ := by
  have hb : d.hostname = b := findDeviceL_hostname hfd
  have hdm : d ∈ D := findDeviceL_mem hfd
  unfold agentCommit
  rw [if_neg]
  · congr 1
    show (⟨D.map _, [J].map _⟩ : St) = _
    congr 1
    · apply List.map_congr_left
      intro x hx
      show (if x.hostname = (devClaim d J.id).hostname then devClaim d J.id else x) =
        (if x.hostname = b then devClaim x J.id else x)
      have : (devClaim d J.id).hostname = b := by simp [devClaim, hb]
      rw [this]
      by_cases hxb : x.hostname = b
      · rw [if_pos hxb, if_pos hxb]
        have hxd : x = d := List.inj_on_of_nodup_map hnodup hx hdm (hxb.trans hb.symm)
        rw [hxd]
      · rw [if_neg hxb, if_neg hxb]
    · show [J].map _ = [jobClaim J d.hostname now]
      simp [pendFor, jobClaim, devClaim]
  · intro hany
    rcases List.any_eq_true.mp hany with ⟨x, hx, hcond⟩
    simp only [Bool.and_eq_true, Bool.not_eq_true', decide_eq_false_iff_not,
      decide_eq_true_eq] at hcond
    rw [hnone x hx] at hcond
    cases hcond.2

theorem agentCommit_claimed_conflict {D : List Device} {h : String} {dh d : Device} {J : Job}
    {jobs : List Job} (now : Nat)
    (hfdh : findDeviceL D h = some dh) (hne : ¬ d.hostname = h) :
    agentCommit ⟨claimedDevs D h J.id, jobs⟩ (pendFor d J now) = none := by
  unfold agentCommit
  rw [if_pos]
  apply List.any_eq_true.mpr
  refine ⟨devClaim dh J.id, ?_, ?_⟩
  · apply List.mem_map.mpr
    refine ⟨dh, findDeviceL_mem hfdh, ?_⟩
    rw [if_pos (findDeviceL_hostname hfdh)]
  · have h1 : (devClaim dh J.id).hostname = h := by
      simp [devClaim, findDeviceL_hostname hfdh]
    have h2 : (pendFor d J now).device.hostname = d.hostname := by
      simp [pendFor, devClaim]
    simp only [Bool.and_eq_true, Bool.not_eq_true', decide_eq_false_iff_not,
      decide_eq_true_eq, h1, h2]
    constructor
    · intro hc
      exact hne (hc ▸ rfl)
    · simp [devClaim, pendFor, jobClaim]

theorem Inv_init (now : Nat) (D : List Device) (J : Job) (B : List String) :
    Inv now D J B (sysStart D J B) := by
  have hboards : (sysStart D J B).agents.map (fun a => a.board) = B := by
    show (B.map fun b => (⟨b, APhase.toRead⟩ : Agent)).map (fun a => a.board) = B
    rw [List.map_map]
    show List.map (fun b => b) B = B
    simp
  refine ⟨hboards, Or.inl ⟨rfl, ?_⟩⟩
  intro i a hi
  have hi2 : (B.map (fun b => (⟨b, APhase.toRead⟩ : Agent)))[i]? = some a := hi
  rw [List.getElem?_map] at hi2
  rcases Option.map_eq_some'.mp hi2 with ⟨b, _, hfb⟩
  left
  rw [← hfb]

theorem Inv_step {now : Nat} {D : List Device} {J : Job} {B : List String} {sys : Sys}
    (hinit : GoodInit D J) (hbds : GoodBoards D J B) (hinv : Inv now D J B sys) (i : Nat) :
    Inv now D J B (stepSys now sys i) := by
  obtain ⟨hnodupD, hnone, _⟩ := hinit
  obtain ⟨hnodupB, hbd⟩ := hbds
  obtain ⟨hmap, hcase⟩ := hinv
  cases hget : sys.agents[i]? with
  | none => rw [stepSys_get_none hget]; exact ⟨hmap, hcase⟩
  | some a =>
    have hBi : B[i]? = some a.board := by
      rw [← hmap, List.getElem?_map, hget]; rfl
    have haB : a.board ∈ B := List.getElem?_mem hBi
    cases hph : a.phase with
    | done r => rw [stepSys_done hget hph]; exact ⟨hmap, hcase⟩
    | failed e => rw [stepSys_failed hget hph]; exact ⟨hmap, hcase⟩
    | toRead =>
      rcases hcase with ⟨hdb, hag⟩ | ⟨h, hhB, hdb, hag⟩
      · obtain ⟨d, hfd, hidle, hcand⟩ := hbd a.board haB
        have hjobs : sys.db.jobs = [J] := by rw [hdb]
        have hfd2 : findDevice sys.db a.board = some d := by
          rw [hdb]; exact hfd
        have hread : agentRead now sys.db a.board = ReadStep.claim (pendFor d J now) :=
          agentRead_claim now hfd2 hidle (selectJob_single hjobs hcand)
        rw [stepSys_toRead_claim hget hph hread]
        refine ⟨(boards_preserved hget _).trans hmap, Or.inl ⟨hdb, ?_⟩⟩
        intro j a' hj
        rcases getElem?_set_cases hj with ⟨_, rfl⟩ | ⟨_, hj'⟩
        · right; exact ⟨d, hfd, rfl⟩
        · exact hag j a' hj'
      · have hspec := hag i a hget
        have hbne : ¬ a.board = h := by
          intro hEq
          have hdone := hspec.1 hEq
          rw [hph] at hdone
          cases hdone
        obtain ⟨d, hfd, hidle, _⟩ := hbd a.board haB
        have hfd2 : findDevice sys.db a.board = some d := by
          rw [hdb]
          show findDeviceL (claimedDevs D h J.id) a.board = some d
          rw [findDeviceL_claimedDevs_ne hbne]
          exact hfd
        have hread : agentRead now sys.db a.board = ReadStep.noJob := by
          apply agentRead_noCandidate now hfd2 hidle
          exact selectJob_claimed_none J h now (by rw [hdb])
        rw [stepSys_toRead_noJob hget hph hread]
        refine ⟨(boards_preserved hget _).trans hmap, Or.inr ⟨h, hhB, hdb, ?_⟩⟩
        intro j a' hj
        rcases getElem?_set_cases hj with ⟨_, rfl⟩ | ⟨_, hj'⟩
        · exact ⟨fun hEq => absurd hEq hbne, fun _ => Or.inr rfl⟩
        · exact hag j a' hj'
    | toCommit p =>
      rcases hcase with ⟨hdb, hag⟩ | ⟨h, hhB, hdb, hag⟩
      · have hok := hag i a hget
        rcases hok with hR | ⟨d, hfd, hC⟩
        · rw [hph] at hR; cases hR
        · rw [hph] at hC
          have hpe : p = pendFor d J now := APhase.toCommit.inj hC
          subst hpe
          have hb : d.hostname = a.board := findDeviceL_hostname hfd
          have hcommit : agentCommit sys.db (pendFor d J now) =
              some ⟨claimedDevs D a.board J.id, [jobClaim J d.hostname now]⟩ := by
            rw [hdb]
            exact agentCommit_unclaimed now hnodupD hnone hfd
          rw [stepSys_toCommit_success hget hph hcommit]
          refine ⟨(boards_preserved hget _).trans hmap, Or.inr ⟨a.board, haB, ?_, ?_⟩⟩
          · show (⟨claimedDevs D a.board J.id, [jobClaim J d.hostname now]⟩ : St) = _
            rw [hb]
          · intro j a' hj
            rcases getElem?_set_cases hj with ⟨_, rfl⟩ | ⟨hij, hj'⟩
            · refine ⟨fun _ => ?_, fun hne2 => absurd rfl hne2⟩
              show APhase.done (some (pendFor d J now).result) = _
              show APhase.done (some (setKV J.definition "target" d.hostname)) = _
              rw [hb]
            · have hold := hag j a' hj'
              refine ⟨fun hEq => ?_, fun _ => Or.inl hold⟩
              exfalso
              have hBj : B[j]? = some a'.board := by
                rw [← hmap, List.getElem?_map, hj']; rfl
              have hji : j = i := nodup_getElem?_inj hnodupB (by rw [hBj, hEq]) hBi
              exact hij hji.symm
      · have hspec := hag i a hget
        have hbne : ¬ a.board = h := by
          intro hEq
          have hdone := hspec.1 hEq
          rw [hph] at hdone
          cases hdone
        rcases hspec.2 hbne with hok | hdn
        · rcases hok with hR | ⟨d, hfd, hC⟩
          · rw [hph] at hR; cases hR
          · rw [hph] at hC
            have hpe : p = pendFor d J now := APhase.toCommit.inj hC
            subst hpe
            obtain ⟨dh, hfdh, _, _⟩ := hbd h hhB
            have hdne : ¬ d.hostname = h := by
              rw [findDeviceL_hostname hfd]; exact hbne
            have hconf : agentCommit sys.db (pendFor d J now) = none := by
              rw [hdb]
              exact agentCommit_claimed_conflict now hfdh hdne
            rw [stepSys_toCommit_conflict hget hph hconf]
            refine ⟨(boards_preserved hget _).trans hmap, Or.inr ⟨h, hhB, hdb, ?_⟩⟩
            intro j a' hj
            rcases getElem?_set_cases hj with ⟨_, rfl⟩ | ⟨_, hj'⟩
            · exact ⟨fun hEq => absurd hEq hbne, fun _ => Or.inl (Or.inl rfl)⟩
            · exact hag j a' hj'
        · rw [hph] at hdn; cases hdn

theorem Inv_run {now : Nat} {D : List Device} {J : Job} {B : List String}
    (hinit : GoodInit D J) (hbds : GoodBoards D J B) :
    ∀ (sched : List Nat) (sys : Sys), Inv now D J B sys →
      Inv now D J B (runSys now sys sched) := by
  intro sched
  induction sched with
  | nil => intro sys h; exact h
  | cons s rest ih =>
    intro sys h
    exact ih (stepSys now sys s) (Inv_step hinit hbds h s)

/-- Claim C9 (amended): in the race of agents for pairwise *distinct* boards
over a single qualifying SUBMITTED job, after any schedule of atomic steps
no two devices hold the same job (and each holds at most one, its
`current_job`), and in any completed schedule exactly one invocation has
claimed the job while every other invocation returned none.  (For agents
sharing a board the claim fails; see the counterexample.) -/
theorem single_job_exactly_one_claim (now : Nat) (D : List Device) (J : Job)
    (B : List String) (sched : List Nat)
    (hinit : GoodInit D J) (hbds : GoodBoards D J B) (hne : ¬ B = []) :
    (∀ d1 ∈ (runSys now (sysStart D J B) sched).db.devices,
      ∀ d2 ∈ (runSys now (sysStart D J B) sched).db.devices, ∀ jid : Nat,
        d1.current_job = some jid → d2.current_job = some jid → d1 = d2) ∧
    (Complete (runSys now (sysStart D J B) sched) →
      ∃ (i : Nat) (a : Agent),
        (runSys now (sysStart D J B) sched).agents[i]? = some a ∧
        a.phase = APhase.done (some (setKV J.definition "target" a.board)) ∧
        ∀ (j : Nat) (b : Agent),
          (runSys now (sysStart D J B) sched).agents[j]? = some b → ¬ j = i →
            b.phase = APhase.done none) := by
  obtain ⟨hmap, hcase⟩ := Inv_run hinit hbds sched (sysStart D J B) (Inv_init now D J B)
  constructor
  · intro d1 h1 d2 h2 jid hc1 hc2
    rcases hcase with ⟨hdb, _⟩ | ⟨h, _, hdb, _⟩
    · have h1' : d1 ∈ D := by rw [hdb] at h1; exact h1
      rw [hinit.2.1 d1 h1'] at hc1
      cases hc1
    · have h1' : d1 ∈ claimedDevs D h J.id := by rw [hdb] at h1; exact h1
      have h2' : d2 ∈ claimedDevs D h J.id := by rw [hdb] at h2; exact h2
      rcases List.mem_map.mp h1' with ⟨x1, hx1, hfx1⟩
      rcases List.mem_map.mp h2' with ⟨x2, hx2, hfx2⟩
      by_cases hb1 : x1.hostname = h
      · by_cases hb2 : x2.hostname = h
        · have hx12 : x1 = x2 := List.inj_on_of_nodup_map hinit.1 hx1 hx2 (hb1.trans hb2.symm)
          rw [← hfx1, ← hfx2, hx12]
        · exfalso
          rw [if_neg hb2] at hfx2
          rw [← hfx2, hinit.2.1 x2 hx2] at hc2
          cases hc2
      · exfalso
        rw [if_neg hb1] at hfx1
        rw [← hfx1, hinit.2.1 x1 hx1] at hc1
        cases hc1
  · intro hcomp
    rcases hcase with ⟨hdb, hag⟩ | ⟨h, hhB, hdb, hag⟩
    · exfalso
      cases hA : (runSys now (sysStart D J B) sched).agents with
      | nil =>
        rw [hA] at hmap
        simp at hmap
        exact hne hmap
      | cons a0 tl =>
        have h0 : (runSys now (sysStart D J B) sched).agents[0]? = some a0 := by
          rw [hA]; simp
        obtain ⟨r, hr⟩ := hcomp 0 a0 h0
        rcases hag 0 a0 h0 with hR | ⟨d, _, hC⟩
        · rw [hr] at hR; cases hR
        · rw [hr] at hC; cases hC
    · obtain ⟨i, hBi⟩ := List.mem_iff_getElem?.mp hhB
      have hmap_i : ((runSys now (sysStart D J B) sched).agents[i]?).map (fun a => a.board) =
          some h := by
        rw [← List.getElem?_map, hmap]
        exact hBi
      rcases Option.map_eq_some'.mp hmap_i with ⟨a, hga, hab⟩
      refine ⟨i, a, hga, ?_, ?_⟩
      · have hdone := (hag i a hga).1 hab
        rw [hab]
        exact hdone
      · intro j b hgb hne2
        have hbneh : ¬ b.board = h := by
          intro hEq
          apply hne2
          have hBj : B[j]? = some b.board := by
            rw [← hmap, List.getElem?_map, hgb]
            rfl
          exact nodup_getElem?_inj hbds.1 (by rw [hBj, hEq]) hBi
        obtain ⟨r, hr⟩ := hcomp j b hgb
        rcases (hag j b hgb).2 hbneh with hok | hdn
        · rcases hok with hR | ⟨d, _, hC⟩
          · rw [hr] at hR; cases hR
          · rw [hr] at hC; cases hC
        · exact hdn

theorem exC9w_goodInit : GoodInit exC9w_D exC9w_J := by
  refine ⟨by decide, by decide, by decide⟩

theorem exC9w_goodBoards : GoodBoards exC9w_D exC9w_J ["a", "b"] := by
  refine ⟨by decide, ?_⟩
  intro b hb
  rcases List.mem_cons.mp hb with rfl | hb2
  · exact ⟨⟨"a", "t", DeviceStatus.IDLE, none⟩, rfl, rfl, by decide⟩
  · rcases List.mem_cons.mp hb2 with rfl | hb3
    · exact ⟨⟨"b", "t", DeviceStatus.IDLE, none⟩, rfl, rfl, by decide⟩
    · cases hb3

/-- Witness for claim C9: two distinct boards "a" and "b" racing for the one
qualifying job under the schedule read/read/commit/commit/re-read. -/
theorem single_job_exactly_one_claim_witness :
    GoodInit exC9w_D exC9w_J ∧ GoodBoards exC9w_D exC9w_J ["a", "b"] ∧
    ((∀ d1 ∈ (runSys 0 (sysStart exC9w_D exC9w_J ["a", "b"]) [0, 1, 0, 1, 1]).db.devices,
       ∀ d2 ∈ (runSys 0 (sysStart exC9w_D exC9w_J ["a", "b"]) [0, 1, 0, 1, 1]).db.devices,
       ∀ jid : Nat, d1.current_job = some jid → d2.current_job = some jid → d1 = d2) ∧
     (Complete (runSys 0 (sysStart exC9w_D exC9w_J ["a", "b"]) [0, 1, 0, 1, 1]) →
       ∃ (i : Nat) (a : Agent),
         (runSys 0 (sysStart exC9w_D exC9w_J ["a", "b"]) [0, 1, 0, 1, 1]).agents[i]? = some a ∧
         a.phase = APhase.done (some (setKV exC9w_J.definition "target" a.board)) ∧
         ∀ (j : Nat) (b : Agent),
           (runSys 0 (sysStart exC9w_D exC9w_J ["a", "b"]) [0, 1, 0, 1, 1]).agents[j]? = some b →
             ¬ j = i → b.phase = APhase.done none)) :=
  ⟨exC9w_goodInit, exC9w_goodBoards,
    single_job_exactly_one_claim 0 exC9w_D exC9w_J ["a", "b"] [0, 1, 0, 1, 1]
      exC9w_goodInit exC9w_goodBoards (by decide)⟩

end DbJobSource
